import Mathlib

/-!
Verification of the multi-source Q&A aggregation pipeline.

A shallow embedding of `src/app.py`: a Streamlit question-answering script
that loads up to four FAISS retriever backends, fans a question out to all
of them through a `RunnableMap`, assembles a labelled, per-snippet-truncated
context string, and feeds one prompt to a chat model.

Strings are modelled as `List Char` (`Str`), matching Python string
semantics (slicing = `List.take`, `str.strip` = drop whitespace at both
ends, `"\n".join` = intercalation). Fallible external calls (index loading,
retriever queries, the LLM call) are modelled as `Except Str` values, and
the Streamlit button handler is a pure function from the registry, the
model and the question to a cycle result that records which message is
displayed, whether retrieval ran and how many generation calls were made.
-/

abbrev Str := List Char

/-- A retrieved document, as produced by a retriever backend
(`data.page_content` in `app.py`). -/
structure Document where
  page_content : Str
deriving DecidableEq

/-- A live retriever backend: given a query, returns documents or raises
(models `retriever.invoke` inside the `RunnableMap`). -/
abbrev Backend := Str → Except Str (List Document)

/-- Python whitespace characters relevant to `str.strip()` (ASCII range). -/
def isPySpace (c : Char) : Bool :=
  c = ' ' || c = '\t' || c = '\n' || c = '\r' || c = '\x0b' || c = '\x0c'

/-- Python `s.strip()`: remove leading and trailing whitespace. -/
def pyStrip (s : Str) : Str :=
  ((s.dropWhile isPySpace).reverse.dropWhile isPySpace).reverse

/-- Python slicing `s[:c]`: the first `c` characters of `s`. -/
def truncate (s : Str) (c : Nat) : Str := s.take c

/-- One formatted entry of the assembled context:
`f"Source: {source}\n{data.page_content[:2000]}"` (app.py line 86). -/
def entryFormat (source : Str) (d : Document) : Str :=
  "Source: ".toList ++ source ++ '\n' :: truncate d.page_content 2000

/-- The flattened generator of app.py lines 87–88: all formatted entries,
source order first, intra-source rank order second. -/
def entriesOf : List (Str × List Document) → List Str
  | [] => []
  | p :: rest => p.2.map (entryFormat p.1) ++ entriesOf rest

/-- Python `"\n".join(...)`. -/
def joinNL : List Str → Str
  | [] => []
  | [x] => x
  | x :: y :: rest => x ++ '\n' :: joinNL (y :: rest)

/-- `combined_contexts` (app.py lines 85–89): the labelled, truncated,
newline-joined concatenation of every backend's results. -/
def combined_contexts (contexts : List (Str × List Document)) : Str :=
  joinNL (entriesOf contexts)

/-- `RunnableMap(retrievers).invoke(...)` (app.py lines 81–84): query every
registered backend; if any backend raises, the whole invocation raises. -/
def invokeMap (retrievers : List (Str × Backend)) (q : Str) :
    Except Str (List (Str × List Document)) :=
  match retrievers with
  | [] => .ok []
  | (name, r) :: rest =>
    match r q with
    | .error e => .error e
    | .ok docs =>
      match invokeMap rest q with
      | .error e => .error e
      | .ok tail => .ok ((name, docs) :: tail)

/-- The prompt template of app.py lines 19–24 with its two slots filled
(`prompt.format(context=..., question=...)`, line 99). -/
def formatPrompt (context question : Str) : Str :=
  ("Please answer the questions based on the following content "
    ++ "and your own judgment:\n").toList
  ++ context ++ "\nQuestion: ".toList ++ question

/-- The four message shapes the button handler can display. -/
inductive Outcome where
  /-- `"Please enter a question and ensure all retrievers are loaded."` -/
  | promptForInput : Outcome
  /-- `"No relevant context found for your question."` -/
  | noContext : Outcome
  /-- `st.write("Answer:", answer.content)` -/
  | answer (t : Str) : Outcome
  /-- `st.write("Error during retrieval or processing:", e)` -/
  | errored (e : Str) : Outcome
deriving DecidableEq

/-- The text each outcome renders to the user (the `st.write` lines of
app.py: 93, 103, 105, 107). -/
def displayText : Outcome → Str
  | .promptForInput =>
      "Please enter a question and ensure all retrievers are loaded.".toList
  | .noContext => "No relevant context found for your question.".toList
  | .answer t => "Answer: ".toList ++ t
  | .errored e => "Error during retrieval or processing: ".toList ++ e

/-- What one press of the "Get Answer" button produced: the displayed
outcome, whether the retrieval fan-out was invoked, and how many times the
generation model was called. -/
structure CycleResult where
  outcome : Outcome
  retrievalInvoked : Bool
  generationCalls : Nat
deriving DecidableEq

/-- The button handler (app.py lines 76–107). `if question and retrievers:`
is Python truthiness: both the question string and the registry dict must be
non-empty. The single `try/except` around lines 78–103 catches a raise from
either the retrieval fan-out or the generation call. -/
def processQuestion (retrievers : List (Str × Backend))
    (llm : Str → Except Str Str) (question : Str) : CycleResult :=
  if question.isEmpty = false ∧ retrievers.isEmpty = false then
    match invokeMap retrievers question with
    | .error e => ⟨.errored e, true, 0⟩
    | .ok contexts =>
      if pyStrip (combined_contexts contexts) = [] then ⟨.noContext, true, 0⟩
      else
        match llm (formatPrompt (combined_contexts contexts) question) with
        | .ok ans => ⟨.answer ans, true, 1⟩
        | .error e => ⟨.errored e, true, 1⟩
  else ⟨.promptForInput, false, 0⟩

/-- The configured source names, in registration order
(app.py lines 32–66). -/
def configuredSources : List Str :=
  ["youtube".toList, "website".toList, "pdf".toList, "pptx".toList]

/-- Registry construction over a given list of source names: each load is
attempted inside its own `try/except`; a failure records that source's name
as a load-failure event and construction proceeds with the next source. -/
def buildRegistryAux (load : Str → Except Str Backend) :
    List Str → List (Str × Backend) × List Str
  | [] => ([], [])
  | n :: rest =>
    match load n with
    | .ok b => ((n, b) :: (buildRegistryAux load rest).1, (buildRegistryAux load rest).2)
    | .error _ => ((buildRegistryAux load rest).1, n :: (buildRegistryAux load rest).2)

/-- `retrievers` construction (app.py lines 27–70): try the four configured
sources in order; the result maps only those whose `FAISS.load_local`
succeeded, and every failure is recorded for display. -/
def buildRegistry (load : Str → Except Str Backend) :
    List (Str × Backend) × List Str :=
  buildRegistryAux load configuredSources

/-- Whether loading source `n` succeeds. -/
def loadOk (load : Str → Except Str Backend) (n : Str) : Bool :=
  match load n with
  | .ok _ => true
  | .error _ => false

/-- The module-level mutable state the button handler can see: the registry
built at script start. -/
structure AppState where
  retrievers : List (Str × Backend)

/-- One button press as a state transformer: the handler reads the registry
but never assigns to it (app.py lines 76–107 contain no write to
`retrievers`). -/
def handleButton (st : AppState) (llm : Str → Except Str Str)
    (question : Str) : AppState × CycleResult :=
  (st, processQuestion st.retrievers llm question)

/-- Spec-side restatement of one formatted entry, following the spec's
words: format as `Source: {sourceName}`, a newline, then the text truncated
to its first `C` characters. Used only to compare with `entryFormat`. -/
def specEntry (source text : Str) : Str :=
  "Source: ".toList ++ source ++ "\n".toList ++ truncate text 2000

/-- Spec-side restatement of the assembly: all formatted entries, source
order then intra-source rank order, joined by newlines. Used only to
compare with `combined_contexts`. -/
def specAssemble (ctxs : List (Str × List Document)) : Str :=
  List.intercalate "\n".toList
    ((ctxs.map fun p => p.2.map fun d => specEntry p.1 d.page_content).flatten)

/-- Test fixture: the snippet of the spec's round-trip scenario. -/
def clipDoc : Document := ⟨"clip about neural nets".toList⟩

/-- Test fixture: a backend that returns the scenario snippet. -/
def goodBackend : Backend := fun _ => .ok [clipDoc]

/-- Test fixture: a backend that raises during query execution. -/
def badBackend : Backend := fun _ => .error "boom".toList

/-- Test fixture: a backend whose result set is empty. -/
def emptyResultBackend : Backend := fun _ => .ok []

/-- Test fixture: a registry with one live, succeeding backend. -/
def oneGoodReg : List (Str × Backend) := [("youtube".toList, goodBackend)]

/-- Test fixture: a registry whose single backend returns no documents. -/
def emptyResultReg : List (Str × Backend) := [("youtube".toList, emptyResultBackend)]

/-- Test fixture: two live backends, the second of which raises. -/
def mixedReg : List (Str × Backend) :=
  [("youtube".toList, goodBackend), ("website".toList, badBackend)]

/-- Test fixture: a generation model that answers. -/
def okLlm : Str → Except Str Str := fun _ => .ok "fine".toList

/-- Test fixture: a generation model that raises. -/
def failLlm : Str → Except Str Str := fun _ => .error "rate limit".toList

/-- Test fixture: a document exactly at the 2000-character snippet budget. -/
def bigDoc : Document := ⟨List.replicate 2000 'a'⟩

lemma isEmpty_false_of_ne {α : Type} {l : List α} (h : l ≠ []) : l.isEmpty = false :=
  List.isEmpty_eq_false.mpr h

lemma joinNL_eq_intercalate : ∀ xs : List Str, joinNL xs = List.intercalate "\n".toList xs
  | [] => by simp [joinNL, List.intercalate]
  | [x] => by simp [joinNL, List.intercalate, List.intersperse]
  | x :: y :: rest => by
    have ih := joinNL_eq_intercalate (y :: rest)
    simp only [joinNL, ih]
    simp [List.intercalate, List.intersperse]

lemma entryFormat_eq_specEntry (s : Str) (d : Document) :
    entryFormat s d = specEntry s d.page_content := by
  simp [entryFormat, specEntry]

lemma entriesOf_eq_flatten : ∀ ctxs : List (Str × List Document),
    entriesOf ctxs = (ctxs.map fun p => p.2.map fun d => specEntry p.1 d.page_content).flatten
  | [] => rfl
  | p :: rest => by
    have hf : entryFormat p.1 = fun d => specEntry p.1 d.page_content :=
      funext fun d => entryFormat_eq_specEntry p.1 d
    simp only [entriesOf, List.map_cons, List.flatten_cons, entriesOf_eq_flatten rest, hf]

lemma entriesOf_filter_nonempty : ∀ ctxs : List (Str × List Document),
    entriesOf (ctxs.filter fun p => !p.2.isEmpty) = entriesOf ctxs
  | [] => rfl
  | p :: rest => by
    rcases hp : p.2 with _ | ⟨d, ds⟩
    · simp [List.filter_cons, hp, entriesOf, entriesOf_filter_nonempty rest]
    · simp [List.filter_cons, hp, entriesOf, entriesOf_filter_nonempty rest]

lemma entryFormat_length_le (s : Str) (d : Document) (h : s.length ≤ 7) :
    (entryFormat s d).length ≤ 2016 := by
  have h8 : ("Source: ".toList).length = 8 := rfl
  have ht : (List.take 2000 d.page_content).length ≤ 2000 := by
    rw [List.length_take]; exact min_le_left _ _
  simp only [entryFormat, truncate, List.length_append, List.length_cons, h8]
  omega

lemma joinNL_length_le : ∀ (es : List Str) (B : Nat),
    (∀ x ∈ es, x.length ≤ B) → (joinNL es).length ≤ es.length * (B + 1)
  | [], _, _ => by simp [joinNL]
  | [x], B, h => by
    have := h x (List.mem_singleton.mpr rfl)
    simp only [joinNL, List.length_singleton]
    omega
  | x :: y :: rest, B, h => by
    have ih := joinNL_length_le (y :: rest) B fun z hz => h z (List.mem_cons_of_mem _ hz)
    have hx := h x (List.mem_cons_self _ _)
    simp only [joinNL, List.length_append, List.length_cons] at *
    have hring : ((y :: rest).length + 1) * (B + 1)
        = (B + 1) + (y :: rest).length * (B + 1) := by ring
    simp only [List.length_cons] at hring
    omega

lemma entriesOf_count_le : ∀ (ctxs : List (Str × List Document)) (K : Nat),
    (∀ p ∈ ctxs, (Prod.snd p).length ≤ K) → (entriesOf ctxs).length ≤ ctxs.length * K
  | [], _, _ => by simp [entriesOf]
  | p :: rest, K, h => by
    have ih := entriesOf_count_le rest K fun q hq => h q (List.mem_cons_of_mem _ hq)
    have hp := h p (List.mem_cons_self _ _)
    simp only [entriesOf, List.length_append, List.length_map, List.length_cons]
    have hring : (rest.length + 1) * K = K + rest.length * K := by ring
    omega

lemma entriesOf_entries_le : ∀ ctxs : List (Str × List Document),
    (∀ p ∈ ctxs, (Prod.fst p).length ≤ 7) → ∀ x ∈ entriesOf ctxs, x.length ≤ 2016
  | [], _, x, hx => by simp [entriesOf] at hx
  | p :: rest, h, x, hx => by
    rcases List.mem_append.mp hx with hx1 | hx2
    · obtain ⟨d, _, rfl⟩ := List.mem_map.mp hx1
      exact entryFormat_length_le _ _ (h p (List.mem_cons_self _ _))
    · exact entriesOf_entries_le rest (fun q hq => h q (List.mem_cons_of_mem _ hq)) x hx2

lemma invokeMap_error_of_mem {reg : List (Str × Backend)} {q name efail : Str}
    {r : Backend} (hmem : (name, r) ∈ reg) (hfail : r q = .error efail) :
    ∃ e, invokeMap reg q = .error e := by
  induction reg with
  | nil => cases hmem
  | cons p rest ih =>
    obtain ⟨pn, pr⟩ := p
    rcases List.mem_cons.mp hmem with h | h
    · obtain ⟨rfl, rfl⟩ := Prod.mk.injEq .. ▸ h
      exact ⟨efail, by simp [invokeMap, hfail]⟩
    · rcases hpq : pr q with e2 | docs
      · exact ⟨e2, by simp [invokeMap, hpq]⟩
      · obtain ⟨e, he⟩ := ih h
        exact ⟨e, by simp [invokeMap, hpq, he]⟩

lemma buildRegistryAux_spec (load : Str → Except Str Backend) :
    ∀ l : List Str,
    (buildRegistryAux load l).1.map Prod.fst = l.filter (loadOk load)
    ∧ (buildRegistryAux load l).2 = l.filter fun n => !(loadOk load n)
  | [] => ⟨rfl, rfl⟩
  | n :: rest => by
    have ih := buildRegistryAux_spec load rest
    rcases hl : load n with e | b
    · constructor
      · simp [buildRegistryAux, hl, List.filter_cons, loadOk, ih.1]
      · simp [buildRegistryAux, hl, List.filter_cons, loadOk, ih.2]
    · constructor
      · simp [buildRegistryAux, hl, List.filter_cons, loadOk, ih.1]
      · simp [buildRegistryAux, hl, List.filter_cons, loadOk, ih.2]

lemma errored_display_ne_answer (e t : Str) :
    displayText (.errored e) ≠ displayText (.answer t) := by
  have h1 : displayText (.errored e)
      = 'E' :: ("rror during retrieval or processing: ".toList ++ e) := rfl
  have h2 : displayText (.answer t) = 'A' :: ("nswer: ".toList ++ t) := rfl
  rw [h1, h2]
  intro h
  injection h with hc _
  exact absurd hc (by decide)

lemma errored_display_ne_noContext (e : Str) :
    displayText (.errored e) ≠ displayText .noContext := by
  have h1 : displayText (.errored e)
      = 'E' :: ("rror during retrieval or processing: ".toList ++ e) := rfl
  have h2 : displayText .noContext
      = 'N' :: "o relevant context found for your question.".toList := rfl
  rw [h1, h2]
  intro h
  injection h with hc _
  exact absurd hc (by decide)

/-- C1: for every mapping of sources to retrieved snippets, if the
assembled context is empty after stripping leading and trailing whitespace,
the controller displays the fixed "no relevant context found" message and
the generation call is never invoked for that cycle. -/
theorem noContext_shortCircuit
    (reg : List (Str × Backend)) (llm : Str → Except Str Str) (q : Str)
    (ctxs : List (Str × List Document))
    (hq : q ≠ []) (hr : reg ≠ [])
    (hret : invokeMap reg q = .ok ctxs)
    (hempty : pyStrip (combined_contexts ctxs) = []) :
    processQuestion reg llm q = ⟨.noContext, true, 0⟩
    ∧ displayText Outcome.noContext
      = "No relevant context found for your question.".toList := by
  refine ⟨?_, rfl⟩
  unfold processQuestion
  rw [if_pos ⟨isEmpty_false_of_ne hq, isEmpty_false_of_ne hr⟩]
  simp only [hret]
  rw [if_pos hempty]

/-- Witness for C1: a registry whose single backend returns an empty result
set yields the no-context outcome with zero generation calls. -/
theorem noContext_shortCircuit_at_emptyResults :
    processQuestion emptyResultReg okLlm "hi".toList = ⟨.noContext, true, 0⟩
    ∧ displayText Outcome.noContext
      = "No relevant context found for your question.".toList :=
  noContext_shortCircuit emptyResultReg okLlm "hi".toList [("youtube".toList, [])]
    (by decide) (by simp [emptyResultReg]) rfl rfl

/-- C2: every snippet's contributed text is the first-2000-character
truncation of its `page_content`, whose length is at most 2000, and
truncation at the same budget is idempotent. -/
theorem truncation_bound_idempotent :
    (∀ x : Str, (truncate x 2000).length ≤ 2000
      ∧ truncate (truncate x 2000) 2000 = truncate x 2000)
    ∧ ∀ (s : Str) (d : Document),
      entryFormat s d = "Source: ".toList ++ s ++ '\n' :: truncate d.page_content 2000 := by
  refine ⟨fun x => ⟨?_, ?_⟩, fun s d => rfl⟩
  · rw [truncate, List.length_take]; exact min_le_left _ _
  · simp only [truncate, List.take_take]
    norm_num

/-- C3 counterexample: the whitespace-only question `" "` passes the input
gate (`if question:` tests Python truthiness, not `strip()`): retrieval is
invoked and generation is called once, contradicting the claim that
whitespace-only input never reaches a backend. -/
theorem whitespace_question_reaches_backends :
    pyStrip [' '] = []
    ∧ processQuestion oneGoodReg okLlm [' ']
      = ⟨.answer "fine".toList, true, 1⟩ := ⟨rfl, rfl⟩

/-- C3 (amended): only the empty question is rejected by the input gate:
for the empty string no backend is called and the prompt-for-input message
is returned, while a whitespace-only question passes the gate and reaches
retrieval. -/
theorem empty_question_gate :
    (∀ (reg : List (Str × Backend)) (llm : Str → Except Str Str),
      processQuestion reg llm [] = ⟨.promptForInput, false, 0⟩)
    ∧ (processQuestion oneGoodReg okLlm [' ']).retrievalInvoked = true := by
  refine ⟨fun reg llm => ?_, rfl⟩
  simp [processQuestion]

/-- C4 counterexample: with two live backends where the second raises, the
whole `RunnableMap` invocation raises, the cycle ends in the error outcome
and no assembled context is produced — the first backend's snippet does not
survive the sibling's failure. -/
theorem failing_backend_aborts_cycle :
    invokeMap mixedReg "hi".toList = .error "boom".toList
    ∧ processQuestion mixedReg okLlm "hi".toList
      = ⟨.errored "boom".toList, true, 0⟩ := ⟨rfl, rfl⟩

/-- C4 (amended): backend failures are not isolated: if any registered
backend raises during query execution, the whole retrieval fan-out raises,
the cycle ends in the error outcome and generation is never invoked, so the
remaining backends' snippets do not contribute for that cycle. -/
theorem backend_failure_errors_cycle
    (reg : List (Str × Backend)) (llm : Str → Except Str Str)
    (q name efail : Str) (r : Backend)
    (hmem : (name, r) ∈ reg) (hfail : r q = .error efail) (hq : q ≠ []) :
    ∃ e, invokeMap reg q = .error e
      ∧ processQuestion reg llm q = ⟨.errored e, true, 0⟩ := by
  obtain ⟨e, he⟩ := invokeMap_error_of_mem hmem hfail
  refine ⟨e, he, ?_⟩
  have hr : reg ≠ [] := List.ne_nil_of_mem hmem
  unfold processQuestion
  rw [if_pos ⟨isEmpty_false_of_ne hq, isEmpty_false_of_ne hr⟩]
  simp only [he]

/-- Witness for the amended C4: in `mixedReg` the `website` backend raises,
and the cycle ends in the error outcome with zero generation calls. -/
theorem backend_failure_errors_cycle_at_mixedReg :
    ∃ e, invokeMap mixedReg "hi".toList = .error e
      ∧ processQuestion mixedReg okLlm "hi".toList = ⟨.errored e, true, 0⟩ :=
  backend_failure_errors_cycle mixedReg okLlm "hi".toList "website".toList
    "boom".toList badBackend
    (by unfold mixedReg; exact List.mem_cons_of_mem _ (List.mem_cons_self _ _))
    rfl (by decide)

/-- C5: the assembled context equals the spec-side assembly — `Source:`
labelled, truncated entries in source order then intra-source rank order,
joined by newlines; sources with an empty result list contribute no labeled
block; and the spec's round-trip scenario produces exactly the one
`youtube` block. -/
theorem context_formatting_order :
    (∀ ctxs : List (Str × List Document),
      combined_contexts ctxs = specAssemble ctxs)
    ∧ (∀ ctxs : List (Str × List Document),
        combined_contexts ctxs = combined_contexts (ctxs.filter fun p => !p.2.isEmpty))
    ∧ combined_contexts [("youtube".toList, [clipDoc]), ("website".toList, [])]
      = "Source: youtube\nclip about neural nets".toList := by
  refine ⟨fun ctxs => ?_, fun ctxs => ?_, rfl⟩
  · rw [combined_contexts, joinNL_eq_intercalate, entriesOf_eq_flatten, specAssemble]
  · rw [combined_contexts, combined_contexts, entriesOf_filter_nonempty]

/-- C6 counterexample: one live backend returning one snippet of exactly
2000 characters: the assembled context has 2016 characters because of the
`Source:` label line, exceeding the claimed bound
(live backends) × K × C = 1 × 1 × 2000. -/
theorem context_budget_exceeds_2000 :
    bigDoc.page_content.length = 2000
    ∧ (combined_contexts [("youtube".toList, [bigDoc])]).length = 2016
    ∧ ¬ ((combined_contexts [("youtube".toList, [bigDoc])]).length ≤ 1 * 1 * 2000) := by
  have h2 : bigDoc.page_content.length = 2000 := by
    rw [show bigDoc.page_content = List.replicate 2000 'a' from rfl, List.length_replicate]
  have hlen : (combined_contexts [("youtube".toList, [bigDoc])]).length = 2016 := by
    have h : combined_contexts [("youtube".toList, [bigDoc])]
        = "Source: ".toList ++ "youtube".toList
          ++ '\n' :: List.take 2000 bigDoc.page_content := rfl
    have h3 : ("Source: ".toList).length = 8 := rfl
    have h4 : ("youtube".toList).length = 7 := rfl
    rw [h, List.length_append, List.length_append, List.length_cons,
      List.length_take, h2, h3, h4]
    omega
  refine ⟨h2, hlen, ?_⟩
  rw [hlen]
  omega

/-- C6 (amended): the bound must include the label overhead: when every
source name has at most 7 characters (true of the four configured names)
and each source returns at most K snippets, the assembled context length is
at most N × K × (C + 17), the 17 covering the `Source: {name}` label line
and the joining newline. -/
theorem context_budget_with_labels
    (ctxs : List (Str × List Document)) (K : Nat)
    (hK : ∀ p ∈ ctxs, (Prod.snd p).length ≤ K)
    (hname : ∀ p ∈ ctxs, (Prod.fst p).length ≤ 7) :
    (combined_contexts ctxs).length ≤ ctxs.length * K * (2000 + 17) := by
  have h1 := joinNL_length_le (entriesOf ctxs) 2016 (entriesOf_entries_le ctxs hname)
  have h2 := entriesOf_count_le ctxs K hK
  rw [combined_contexts]
  calc (joinNL (entriesOf ctxs)).length
      ≤ (entriesOf ctxs).length * (2016 + 1) := h1
    _ ≤ ctxs.length * K * (2016 + 1) := Nat.mul_le_mul_right _ h2
    _ = ctxs.length * K * (2000 + 17) := by norm_num

/-- Witness for the amended C6: the 2016-character assembled context of the
full-budget snippet is within the corrected bound 1 × 1 × 2017. -/
theorem context_budget_with_labels_at_bigDoc :
    (combined_contexts [("youtube".toList, [bigDoc])]).length
      ≤ [("youtube".toList, [bigDoc])].length * 1 * (2000 + 17) :=
  context_budget_with_labels [("youtube".toList, [bigDoc])] 1
    (by decide) (by decide)

/-- C7: registry construction tolerates any subset of load failures: the
built registry maps exactly the successfully loaded sources in
configuration order (possibly a strict subset, possibly none), and every
failed source is recorded as a load-failure event. -/
theorem registry_partial_failure_tolerance
    (load : Str → Except Str Backend) :
    (buildRegistry load).1.map Prod.fst = configuredSources.filter (loadOk load)
    ∧ (buildRegistry load).2 = configuredSources.filter fun n => !(loadOk load n) :=
  buildRegistryAux_spec load configuredSources

/-- C8 counterexample: with an empty registry (zero sources loaded) and a
non-empty question, the controller takes the else-branch of
`if question and retrievers:`: it displays the prompt-for-input message —
not the no-usable-context signal — and never invokes the aggregator. -/
theorem empty_registry_prompt_not_noContext :
    processQuestion [] okLlm "hi".toList = ⟨.promptForInput, false, 0⟩
    ∧ Outcome.promptForInput ≠ Outcome.noContext
    ∧ displayText .promptForInput ≠ displayText .noContext :=
  ⟨rfl, by decide, by decide⟩

/-- C8 (amended): if zero sources load successfully then, for every query,
neither retrieval nor generation is invoked — but the controller
short-circuits at the registry truthiness gate with the prompt-for-input
message; the aggregator never runs, so no no-usable-context signal is
produced. -/
theorem empty_registry_no_calls :
    ∀ (llm : Str → Except Str Str) (q : Str),
    processQuestion [] llm q = ⟨.promptForInput, false, 0⟩ := by
  intro llm q
  simp [processQuestion]

/-- C9: when the generation call raises, the cycle surfaces a single error
message, distinct from the no-context message and from every success
output, and the generation call is made exactly once (no automatic
retry). -/
theorem generation_failure_surfaced
    (reg : List (Str × Backend)) (llm : Str → Except Str Str) (q e : Str)
    (ctxs : List (Str × List Document))
    (hq : q ≠ []) (hr : reg ≠ [])
    (hret : invokeMap reg q = .ok ctxs)
    (hne : pyStrip (combined_contexts ctxs) ≠ [])
    (hgen : llm (formatPrompt (combined_contexts ctxs) q) = .error e) :
    processQuestion reg llm q = ⟨.errored e, true, 1⟩
    ∧ (∀ t, displayText (.errored e) ≠ displayText (.answer t))
    ∧ displayText (.errored e) ≠ displayText .noContext := by
  refine ⟨?_, fun t => errored_display_ne_answer e t, errored_display_ne_noContext e⟩
  unfold processQuestion
  rw [if_pos ⟨isEmpty_false_of_ne hq, isEmpty_false_of_ne hr⟩]
  simp only [hret]
  rw [if_neg hne]
  simp only [hgen]

/-- Witness for C9: a raising generation model on a live registry ends the
cycle in the error outcome after exactly one generation call. -/
theorem generation_failure_surfaced_at_failLlm :
    processQuestion oneGoodReg failLlm "hi".toList
      = ⟨.errored "rate limit".toList, true, 1⟩
    ∧ (∀ t, displayText (.errored "rate limit".toList) ≠ displayText (.answer t))
    ∧ displayText (.errored "rate limit".toList) ≠ displayText .noContext :=
  generation_failure_surfaced oneGoodReg failLlm "hi".toList "rate limit".toList
    [("youtube".toList, [clipDoc])] (by decide) (by simp [oneGoodReg]) rfl
    (by decide) rfl

/-- C10: question processing never mutates the registry — the button
handler returns the application state unchanged — and the keys of any built
registry are a subset of the four configured source names. -/
theorem registry_immutable_and_key_bounded :
    (∀ (st : AppState) (llm : Str → Except Str Str) (q : Str),
      (handleButton st llm q).1 = st)
    ∧ ∀ load : Str → Except Str Backend,
      (buildRegistry load).1.map Prod.fst ⊆ configuredSources := by
  refine ⟨fun st llm q => rfl, fun load => ?_⟩
  rw [buildRegistry, (buildRegistryAux_spec load configuredSources).1]
  intro x hx
  exact (List.mem_filter.mp hx).1
